import Mathlib

/-!
Verification development for the "Direct Waste Link / MultiWaste CPOTL"
prototype: a shallow embedding of the pickup-request lifecycle with
ledgered settlement (ledger, matchmaking, tokens, request store,
scheduler) together with theorems about the embedded operations.

Numbers: Python floats are modelled as exact rationals (`ℚ`); Python
ints as `Int`.  `PyNum` keeps the int/float distinction because it is
visible in the JSON serialization that feeds the transaction hash.
-/

set_option maxRecDepth 4096

/-- Python numeric value: either an `int` or a `float` (idealized as `ℚ`). -/
inductive PyNum where
  | int (n : Int)
  | float (q : ℚ)
deriving DecidableEq

/-- The rational value of a `PyNum`. -/
def PyNum.toRat : PyNum → ℚ
  | .int n => (n : ℚ)
  | .float q => q

/-- Python multiplication on numbers: `int * int` stays `int`, any mix
with a `float` is a `float`. -/
def pyMul : PyNum → PyNum → PyNum
  | .int a, .int b => .int (a * b)
  | a, b => .float (a.toRat * b.toRat)

/-- Python `int(x)` on a number: truncation toward zero. -/
def pyInt (q : ℚ) : Int :=
  if q < 0 then -(Int.floor (-q)) else Int.floor q

/-- A JSON-serializable Python value as used by the ledger payload. -/
inductive PyVal where
  | str (s : String)
  | num (n : PyNum)
deriving DecidableEq

/-- Lower-case hexadecimal digit. -/
def hexDigit (n : Nat) : Char :=
  if n < 10 then Char.ofNat (48 + n) else Char.ofNat (87 + n)

/-- Four lower-case hex digits, most significant first. -/
def hex4 (n : Nat) : String :=
  String.mk [hexDigit ((n >>> 12) % 16), hexDigit ((n >>> 8) % 16),
             hexDigit ((n >>> 4) % 16), hexDigit (n % 16)]

/-- JSON escaping of a single character as Python `json.dumps` does with
its default `ensure_ascii=True`: quote and backslash get a backslash
escape, control characters get the short escapes or a u-escape, and
every non-ASCII character becomes u-escapes (with a surrogate pair
beyond the BMP). -/
def escChar (c : Char) : String :=
  let n := c.toNat
  if n = 34 then "\\\""
  else if n = 92 then "\\\\"
  else if n = 10 then "\\n"
  else if n = 13 then "\\r"
  else if n = 9 then "\\t"
  else if n = 8 then "\\b"
  else if n = 12 then "\\f"
  else if n < 32 then "\\u" ++ hex4 n
  else if n < 127 then String.mk [c]
  else if n < 65536 then "\\u" ++ hex4 n
  else
    let v := n - 65536
    "\\u" ++ hex4 (55296 + (v >>> 10)) ++ "\\u" ++ hex4 (56320 + (v &&& 1023))

/-- JSON escaping of a whole string (body only, without the quotes). -/
def escape (s : String) : String :=
  String.join (s.data.map escChar)

/-- Number of decimal digits after the point that Python's shortest
`repr` of this (idealized) float needs: the least `k ≤ 18` with
`q * 10^k` integral. -/
def floatExp (q : ℚ) : Nat :=
  (((List.range 19).find? (fun k => (q * (10 : ℚ) ^ k).den = 1)).getD 18)

/-- Rendering of an (idealized) Python float as `repr`/`json.dumps`
print it: minimal decimal digits, and a trailing `.0` when the value is
integral. -/
def floatRepr (q : ℚ) : String :=
  let k := floatExp q
  let n := (q * (10 : ℚ) ^ k).num
  let sign := if n < 0 then "-" else ""
  let ds := toString n.natAbs
  let ds := if ds.length ≤ k then String.mk (List.replicate (k + 1 - ds.length) '0') ++ ds else ds
  if k = 0 then sign ++ ds ++ ".0"
  else sign ++ (ds.take (ds.length - k)) ++ "." ++ (ds.drop (ds.length - k))

/-- JSON rendering of one value. -/
def renderVal : PyVal → String
  | .str s => "\"" ++ escape s ++ "\""
  | .num (.int n) => toString n
  | .num (.float q) => floatRepr q

/-- JSON rendering of one `key: value` member, Python's default
separator `": "` included. -/
def renderMember (p : String × PyVal) : String :=
  "\"" ++ escape p.1 ++ "\": " ++ renderVal p.2

/-- Lexicographic strict comparison of character lists by code point,
Python's `<` on strings. -/
def charsLt : List Char → List Char → Bool
  | [], [] => false
  | [], _ :: _ => true
  | _ :: _, [] => false
  | a :: as, b :: bs =>
    if a.toNat < b.toNat then true
    else if b.toNat < a.toNat then false
    else charsLt as bs

/-- Python's `<` on strings (lexicographic by code point). -/
def strLt (a b : String) : Bool := charsLt a.data b.data

/-- Insert a pair into a key-sorted association list (stable: a key goes
after existing equal keys). -/
def insertKey (p : String × PyVal) : List (String × PyVal) → List (String × PyVal)
  | [] => [p]
  | q :: rest => if strLt p.1 q.1 then p :: q :: rest else q :: insertKey p rest

/-- Sort an association list by key, as `json.dumps(..., sort_keys=True)`
orders object members. -/
def sortKeys : List (String × PyVal) → List (String × PyVal)
  | [] => []
  | p :: rest => insertKey p (sortKeys rest)

/-- `json.dumps(obj, sort_keys=True)` for a flat string-keyed object,
with Python's default separators `", "` and `": "`. -/
def dumpsObj (l : List (String × PyVal)) : String :=
  "\x7b" ++ String.intercalate ", " ((sortKeys l).map renderMember) ++ "\x7d"

/-- UTF-8 encoding of one character as a list of byte values. -/
def utf8Char (c : Char) : List Nat :=
  let n := c.toNat
  if n < 128 then [n]
  else if n < 2048 then [192 ||| (n >>> 6), 128 ||| (n &&& 63)]
  else if n < 65536 then
    [224 ||| (n >>> 12), 128 ||| ((n >>> 6) &&& 63), 128 ||| (n &&& 63)]
  else
    [240 ||| (n >>> 18), 128 ||| ((n >>> 12) &&& 63),
     128 ||| ((n >>> 6) &&& 63), 128 ||| (n &&& 63)]

/-- UTF-8 encoding of a string (Python's `str.encode` to bytes). -/
def utf8 (s : String) : List Nat :=
  s.data.foldr (fun c acc => utf8Char c ++ acc) []

namespace SHA256

/-- 2^32, the word modulus. -/
def M32 : Nat := 4294967296

/-- Addition modulo 2^32. -/
def add32 (a b : Nat) : Nat := (a + b) % M32

/-- Right rotation of a 32-bit word by `n` (for `0 < n < 32`). -/
def rotr (n x : Nat) : Nat := (x >>> n) ||| ((x <<< (32 - n)) % M32)

/-- Logical right shift. -/
def shr (n x : Nat) : Nat := x >>> n

/-- `Ch(x,y,z) = (x ∧ y) ⊕ (¬x ∧ z)` on 32-bit words. -/
def ch (x y z : Nat) : Nat := (x &&& y) ^^^ ((x ^^^ 4294967295) &&& z)

/-- `Maj(x,y,z)` on 32-bit words. -/
def maj (x y z : Nat) : Nat := ((x &&& y) ^^^ (x &&& z)) ^^^ (y &&& z)

/-- Message-schedule sigma 0. -/
def ssig0 (x : Nat) : Nat := (rotr 7 x ^^^ rotr 18 x) ^^^ shr 3 x

/-- Message-schedule sigma 1. -/
def ssig1 (x : Nat) : Nat := (rotr 17 x ^^^ rotr 19 x) ^^^ shr 10 x

/-- Compression Sigma 0. -/
def bsig0 (x : Nat) : Nat := (rotr 2 x ^^^ rotr 13 x) ^^^ rotr 22 x

/-- Compression Sigma 1. -/
def bsig1 (x : Nat) : Nat := (rotr 6 x ^^^ rotr 11 x) ^^^ rotr 25 x

/-- The 64 round constants of FIPS 180-4 (written in decimal: the
fractional parts of the cube roots of the first 64 primes). -/
def K : List Nat := [
  1116352408, 1899447441, 3049323471, 3921009573, 961987163,
  1508970993, 2453635748, 2870763221, 3624381080, 310598401,
  607225278, 1426881987, 1925078388, 2162078206, 2614888103,
  3248222580, 3835390401, 4022224774, 264347078, 604807628,
  770255983, 1249150122, 1555081692, 1996064986, 2554220882,
  2821834349, 2952996808, 3210313671, 3336571891, 3584528711,
  113926993, 338241895, 666307205, 773529912, 1294757372,
  1396182291, 1695183700, 1986661051, 2177026350, 2456956037,
  2730485921, 2820302411, 3259730800, 3345764771, 3516065817,
  3600352804, 4094571909, 275423344, 430227734, 506948616,
  659060556, 883997877, 958139571, 1322822218, 1537002063,
  1747873779, 1955562222, 2024104815, 2227730452, 2361852424,
  2428436474, 2756734187, 3204031479, 3329325298]

/-- The initial hash value of FIPS 180-4 (in decimal: the fractional
parts of the square roots of the first 8 primes). -/
def H0 : List Nat := [
  1779033703, 3144134277, 1013904242, 2773480762,
  1359893119, 2600822924, 528734635, 1541459225]

/-- Big-endian byte decomposition of `v` into `k` bytes. -/
def bytesBE (k : Nat) (v : Nat) : List Nat :=
  (List.range k).reverse.map (fun i => (v >>> (8 * i)) % 256)

/-- Padding: append `0x80`, zero bytes to 56 mod 64, then the bit
length as 8 big-endian bytes. -/
def padMessage (msg : List Nat) : List Nat :=
  msg ++ [128] ++ List.replicate ((119 - (msg.length % 64)) % 64) 0
      ++ bytesBE 8 (8 * msg.length)

/-- Group bytes into big-endian 32-bit words. -/
def toWords : List Nat → List Nat
  | a :: b :: c :: d :: rest => (((a * 256 + b) * 256 + c) * 256 + d) :: toWords rest
  | _ => []

/-- Extend 16 words to the full 64-word message schedule. -/
def schedule (ws : List Nat) : Array Nat :=
  (List.range 48).foldl
    (fun a i =>
      let g := fun j => ((a.get? j).getD 0)
      a.push (add32 (add32 (ssig1 (g (i + 14))) (g (i + 9)))
                    (add32 (ssig0 (g (i + 1))) (g i))))
    ws.toArray

/-- One compression round on the 8-word working state. -/
def compress (st : List Nat) (ki wi : Nat) : List Nat :=
  match st with
  | [a, b, c, d, e, f, g, h] =>
    let t1 := add32 h (add32 (bsig1 e) (add32 (ch e f g) (add32 ki wi)))
    let t2 := add32 (bsig0 a) (maj a b c)
    [add32 t1 t2, a, b, c, add32 d t1, e, f, g]
  | other => other

/-- Process one 64-byte chunk against the running hash. -/
def processChunk (hs : List Nat) (chunk : List Nat) : List Nat :=
  let w := schedule (toWords chunk)
  let st := (List.range 64).foldl
    (fun st i => compress st ((K.get? i).getD 0) ((w.get? i).getD 0)) hs
  List.zipWith add32 hs st

/-- Fold the running hash over all 64-byte chunks. -/
def processAll (hs : List Nat) (l : List Nat) : List Nat :=
  if hl : l = [] then hs
  else processAll (processChunk hs (l.take 64)) (l.drop 64)
termination_by l.length
decreasing_by
  have h0 : 0 < l.length := List.length_pos.mpr hl
  simp [List.length_drop]
  omega

/-- Eight lower-case hex digits of one 32-bit word. -/
def wordHex (w : Nat) : String :=
  String.mk (((List.range 8).reverse).map (fun i => hexDigit ((w >>> (4 * i)) % 16)))

/-- `hashlib.sha256(bytes).hexdigest()`: the 64-character lower-case hex
digest of a byte sequence. -/
def sha256hex (msg : List Nat) : String :=
  String.join ((processAll H0 (padMessage msg)).map wordHex)

end SHA256

namespace Ledger

/-- A row of the `ledger` table / the entry dict built by
`record_transaction` in `modules/ledger.py`. -/
structure LedgerEntry where
  tx_id : String
  created_at : String
  household : String
  collector : String
  material : String
  weight : PyNum
  price_per_kg : PyNum
  total : PyNum
  verified : Int
deriving DecidableEq

/-- The payload dict of `record_transaction`, in its Python insertion
order, as an association list. -/
def payloadList (household collector material : String)
    (weight price_per_kg total : PyNum) (created_at : String) :
    List (String × PyVal) :=
  [("household", .str household), ("collector", .str collector),
   ("material", .str material), ("weight", .num weight),
   ("price_per_kg", .num price_per_kg), ("total", .num total),
   ("created_at", .str created_at)]

/-- `record_transaction` from `modules/ledger.py`.  The timestamp
`datetime.utcnow().isoformat()` captured at call time is passed in as
`created_at`; the unused `photo` keyword argument is kept.  Returns the
entry dict (the `db.add_ledger_entry` write is modelled separately on
the store). -/
def record_transaction (household collector material : String)
    (weight price_per_kg : PyNum) (created_at : String)
    (photo : Option String) : LedgerEntry :=
  let total := pyMul weight price_per_kg
  let raw := utf8 (dumpsObj (payloadList household collector material
    weight price_per_kg total created_at))
  let tx_hash := SHA256.sha256hex raw
  { tx_id := tx_hash, created_at := created_at, household := household,
    collector := collector, material := material, weight := weight,
    price_per_kg := price_per_kg, total := total, verified := 0 }

/-- The serialization the specification describes: the JSON object over
the payload fields with the keys written out explicitly in lexicographic
order. -/
def lexPayloadDump (household collector material : String)
    (weight price_per_kg total : PyNum) (created_at : String) : String :=
  "\x7b" ++ String.intercalate ", "
    ([("collector", PyVal.str collector), ("created_at", PyVal.str created_at),
      ("household", PyVal.str household), ("material", PyVal.str material),
      ("price_per_kg", PyVal.num price_per_kg), ("total", PyVal.num total),
      ("weight", PyVal.num weight)].map renderMember) ++ "\x7d"

end Ledger

namespace Matchmaking

/-- A collector record of the static `COLLECTORS` list in
`modules/matchmaking.py`. -/
structure Collector where
  name : String
  lat : ℚ
  lon : ℚ
  price_per_kg : Int
  waste_types : List String
deriving DecidableEq

/-- The static collector list of `modules/matchmaking.py`. -/
def COLLECTORS : List Collector :=
  [{ name := "Pengepul A", lat := mkRat (-69) 10, lon := mkRat 1076 10,
     price_per_kg := 5000, waste_types := ["Plastik PET", "Kertas"] },
   { name := "Pengepul B", lat := mkRat (-692) 100, lon := mkRat 10758 100,
     price_per_kg := 4000, waste_types := ["Plastik PET", "HDPE"] },
   { name := "Bank Sampah C", lat := mkRat (-691) 100, lon := mkRat 10759 100,
     price_per_kg := 3000, waste_types := ["Kertas", "Kaca", "Logam"] }]

/-- Stable insertion into a list already sorted by the key: the new
element, which originally preceded every element of the list, goes
before the first element of greater-or-equal key. -/
def insertSorted (key : Collector → Int) (c : Collector) :
    List Collector → List Collector
  | [] => [c]
  | d :: rest =>
    if key c ≤ key d then c :: d :: rest else d :: insertSorted key c rest

/-- Python's stable `sorted(l, key=...)`, modelled as a stable insertion
sort. -/
def pySorted (key : Collector → Int) : List Collector → List Collector
  | [] => []
  | c :: rest => insertSorted key c (pySorted key rest)

/-- `find_collectors_for` from `modules/matchmaking.py`: the collectors
accepting the material, sorted ascending by price per kg. -/
def find_collectors_for (material : String) : List Collector :=
  pySorted (fun x => x.price_per_kg)
    (COLLECTORS.filter (fun c => c.waste_types.contains material))

/-- Stable insertion on index-tagged collectors ordered by
(price, original index) lexicographically. -/
def insertSpec (p : Nat × Collector) :
    List (Nat × Collector) → List (Nat × Collector)
  | [] => [p]
  | q :: rest =>
    if p.2.price_per_kg < q.2.price_per_kg ∨
       (p.2.price_per_kg = q.2.price_per_kg ∧ p.1 < q.1) then p :: q :: rest
    else q :: insertSpec p rest

/-- Sort index-tagged collectors by (price, original index). -/
def sortSpec : List (Nat × Collector) → List (Nat × Collector)
  | [] => []
  | p :: rest => insertSpec p (sortSpec rest)

/-- Tag each element with its position, starting at `i`. -/
def withIdx (i : Nat) : List Collector → List (Nat × Collector)
  | [] => []
  | c :: rest => (i, c) :: withIdx (i + 1) rest

/-- The matching result as the specification words it: the subset of the
static list whose accepted-materials set contains the label, ordered
ascending by price per kg with ties broken by original list position. -/
def matchSpec (material : String) : List Collector :=
  (sortSpec ((withIdx 0 COLLECTORS).filter
    (fun p => p.2.waste_types.contains material))).map (fun p => p.2)

end Matchmaking

namespace Tokens

/-- The JSON-file token store of `modules/tokens.py`: a Python dict from
household to integer balance, modelled as an association list in
insertion order. -/
abbrev TokenStore := List (String × Int)

/-- Python `data.get(h, 0)` on a dict modelled as an association list
with unique keys: the value at the key, else 0. -/
def lookupD : TokenStore → String → Int
  | [], _ => 0
  | p :: rest, h => if p.1 == h then p.2 else lookupD rest h

/-- Python `data[k] = v` on a dict: overwrite in place if the key is
present, else append. -/
def dictSet : TokenStore → String → Int → TokenStore
  | [], k, v => [(k, v)]
  | p :: rest, k, v =>
    if p.1 == k then (k, v) :: rest else p :: dictSet rest k v

/-- `award_tokens` from `modules/tokens.py`: computes
`tokens = int(weight*10)`, adds it to the household's balance, and
returns the tokens granted by this call together with the updated
store.  The `material` argument is accepted and unused, as in the
source. -/
def award_tokens (s : TokenStore) (household material : String)
    (weight : ℚ) : Int × TokenStore :=
  let tokens := pyInt (weight * 10)
  (tokens, dictSet s household (lookupD s household + tokens))

/-- `get_balance` from `modules/tokens.py`. -/
def get_balance (s : TokenStore) (household : String) : Int :=
  lookupD s household

/-- Run a sequence of `award_tokens` calls
(household, material, weight) against a store. -/
def runAwards (s : TokenStore) : List (String × String × ℚ) → TokenStore
  | [] => s
  | c :: rest => runAwards (award_tokens s c.1 c.2.1 c.2.2).2 rest

/-- The sum of the token amounts the calls of the sequence grant to one
household (each grant is `int(weight*10)`, independent of the store). -/
def grantsTo (h : String) : List (String × String × ℚ) → Int
  | [] => 0
  | c :: rest => (if c.1 == h then pyInt (c.2.2 * 10) else 0) + grantsTo h rest

end Tokens

namespace Db

/-- A row of the `requests` table of `modules/db.py` (the columns
`add_request` fills; `collector` and `tx_id` stay NULL there). -/
structure RequestRow where
  created_at : String
  household : String
  address : String
  material : String
  weight : PyNum
  status : String
deriving DecidableEq

/-- `add_request` from `modules/db.py`: inserts a row with
`datetime("now")` (passed in as `created_at`) and status `'OPEN'`. -/
def add_request (store : List RequestRow)
    (household address material : String) (weight : PyNum)
    (created_at : String) : List RequestRow :=
  store ++ [{ created_at := created_at, household := household,
              address := address, material := material, weight := weight,
              status := "OPEN" }]

/-- `add_ledger_entry` from `modules/db.py`:
`INSERT OR REPLACE` keyed by the `tx_id` primary key — any existing row
with the same `tx_id` is removed and the new row is inserted. -/
def add_ledger_entry (store : List Ledger.LedgerEntry)
    (entry : Ledger.LedgerEntry) : List Ledger.LedgerEntry :=
  (store.filter (fun e => e.tx_id ≠ entry.tx_id)) ++ [entry]

end Db

namespace Scheduler

/-- The dict `create_pickup` returns. -/
structure PickupHandle where
  pickup_id : String
  status : String
  collector : String
deriving DecidableEq

/-- `create_pickup` from `modules/scheduler.py`: writes the request via
`db.add_request` and returns the stub
`{'pickup_id': str(uuid.uuid4()), 'status': 'SCHEDULED', 'collector': collector}`.
The fresh `uuid4` value and the row timestamp are passed in as
parameters. -/
def create_pickup (store : List Db.RequestRow)
    (household address collector material : String) (weight : PyNum)
    (photo_path : Option String) (uuid created_at : String) :
    PickupHandle × List Db.RequestRow :=
  ({ pickup_id := uuid, status := "SCHEDULED", collector := collector },
   Db.add_request store household address material weight created_at)

end Scheduler

namespace PPS

/-- A row of the `requests` table of `pps.py` (the Streamlit app). -/
structure PRequest where
  id : Nat
  created_at : String
  household_name : String
  address : String
  reported_waste_type : String
  model_waste_type : Option String
  weight_kg : ℚ
  notes : String
  photo_path : Option String
  status : String
  assigned_collector : Option String
deriving DecidableEq

/-- `add_request` from `pps.py`: inserts a row with status `'OPEN'` and
NULL `assigned_collector`; the auto-increment id is one past the number
of rows ever inserted (rows are never deleted). -/
def add_request (s : List PRequest)
    (created_at household_name address reported_waste_type : String)
    (model_waste_type : Option String) (weight_kg : ℚ) (notes : String)
    (photo_path : Option String) : List PRequest :=
  s ++ [{ id := s.length + 1, created_at := created_at,
          household_name := household_name, address := address,
          reported_waste_type := reported_waste_type,
          model_waste_type := model_waste_type, weight_kg := weight_kg,
          notes := notes, photo_path := photo_path,
          status := "OPEN", assigned_collector := none }]

/-- `assign_collector` from `pps.py`:
`UPDATE requests SET status='ASSIGNED', assigned_collector=? WHERE id=?`. -/
def assign_collector (s : List PRequest) (request_id : Nat)
    (collector_name : String) : List PRequest :=
  s.map (fun r =>
    if r.id = request_id then
      { r with status := "ASSIGNED", assigned_collector := some collector_name }
    else r)

/-- One mutation of the request store: an `add_request` or an
`assign_collector` call. -/
inductive Step : List PRequest → List PRequest → Prop where
  | add (s : List PRequest)
      (created_at household_name address reported_waste_type : String)
      (model_waste_type : Option String) (weight_kg : ℚ) (notes : String)
      (photo_path : Option String) :
      Step s (add_request s created_at household_name address
        reported_waste_type model_waste_type weight_kg notes photo_path)
  | assign (s : List PRequest) (request_id : Nat) (collector_name : String) :
      Step s (assign_collector s request_id collector_name)

/-- States reachable from the empty request store. -/
inductive Reachable : List PRequest → Prop where
  | nil : Reachable []
  | step {s s' : List PRequest} : Reachable s → Step s s' → Reachable s'

end PPS

/-- A concrete ledger entry used to instantiate theorems. -/
def demoEntry : Ledger.LedgerEntry :=
  { tx_id := "tx-1", created_at := "2026-01-01T00:00:00", household := "H1",
    collector := "Pengepul B", material := "Plastik PET",
    weight := PyNum.float (5/2), price_per_kg := PyNum.int 4000,
    total := PyNum.float 10000, verified := 0 }

/-- A concrete award sequence with nonnegative weights
(the spec's example: 3.2 kg then 1.0 kg). -/
def demoCalls : List (String × String × ℚ) :=
  [("H1", "Plastik PET", 16/5), ("H1", "Plastik PET", 1)]

/-- A concrete award sequence whose second weight is negative. -/
def demoCallsNeg : List (String × String × ℚ) :=
  [("H1", "Plastik PET", 16/5), ("H1", "Plastik PET", -1)]

/-- A concrete one-request store of the Streamlit app. -/
def demoState : List PPS.PRequest :=
  PPS.add_request [] "2026-01-01T00:00:00" "H1" "Jl. Merdeka 1"
    "Plastik PET" none 2 "" none

/-- C8: for every settlement call, the `total` field of the returned
entry equals `weight * price_per_kg` exactly (real arithmetic modelled
by `ℚ`); in particular it is within any positive tolerance. -/
theorem C8_settlement_total_exact (household collector material : String)
    (weight price_per_kg : PyNum) (created_at : String) (photo : Option String) :
    (Ledger.record_transaction household collector material weight
        price_per_kg created_at photo).total.toRat
      = weight.toRat * price_per_kg.toRat := by
  cases weight <;> cases price_per_kg <;>
    simp [Ledger.record_transaction, pyMul, PyNum.toRat]

/-- C9: the optional `photo` argument has no influence on the result of
`record_transaction`: two calls agreeing on every other field and on
the captured timestamp return the identical entry. -/
theorem C9_photo_noninterference (household collector material : String)
    (weight price_per_kg : PyNum) (created_at : String)
    (photo photo' : Option String) :
    Ledger.record_transaction household collector material weight
        price_per_kg created_at photo
      = Ledger.record_transaction household collector material weight
          price_per_kg created_at photo' := rfl

/-- C7 counterexample: the claim reads the tracking handle as echoing
the created request's status (OPEN), but `create_pickup` returns the
literal status `"SCHEDULED"` while the inserted row has status
`"OPEN"`. -/
theorem C7_counterexample :
    ¬ ((Scheduler.create_pickup [] "H1" "Jl. Merdeka 1" "Pengepul B"
          "Plastik PET" (PyNum.float 2) none "uid-1"
          "2026-01-01T00:00:00").1.status = "OPEN") := by
  decide

/-- C7 (amended): `create_pickup` appends a new request row with status
`"OPEN"` to the request store and returns a handle made of the freshly
generated identifier, the constant status string `"SCHEDULED"` (not the
row's OPEN status), and the chosen collector name echoed back. -/
theorem C7_create_pickup (store : List Db.RequestRow)
    (household address collector material : String) (weight : PyNum)
    (photo_path : Option String) (uuid created_at : String) :
    (Scheduler.create_pickup store household address collector material
        weight photo_path uuid created_at).2
      = store ++ [{ created_at := created_at, household := household,
                    address := address, material := material,
                    weight := weight, status := "OPEN" }]
    ∧ (Scheduler.create_pickup store household address collector material
        weight photo_path uuid created_at).1
      = { pickup_id := uuid, status := "SCHEDULED", collector := collector } :=
  ⟨rfl, rfl⟩

/-- Updating a key of the token dict changes the value read at that key
and no other. -/
theorem lookupD_dictSet (s : Tokens.TokenStore) (k : String) (v : Int)
    (h : String) :
    Tokens.lookupD (Tokens.dictSet s k v) h
      = if k = h then v else Tokens.lookupD s h := by
  induction s with
  | nil =>
    by_cases hkh : k = h <;> simp [Tokens.dictSet, Tokens.lookupD, hkh]
  | cons p rest ih =>
    by_cases hpk : p.1 = k
    · by_cases hkh : k = h <;>
        simp [Tokens.dictSet, Tokens.lookupD, hpk, hkh]
    · by_cases hph : p.1 = h
      · have hkh : ¬ (k = h) := fun e => hpk (by rw [hph, e])
        have hhk : ¬ (h = k) := fun e => hkh e.symm
        simp [Tokens.dictSet, Tokens.lookupD, hpk, hph, hkh, hhk]
      · simp [Tokens.dictSet, Tokens.lookupD, hpk, hph, ih]

/-- C4 counterexample: at weight `-0.15` the code grants
`int(-1.5) = -1` (truncation toward zero) while the claim's
`floor(weight*10)` is `-2`. -/
theorem C4_counterexample :
    ¬ ((Tokens.award_tokens [] "H1" "Plastik PET" (-(3 : ℚ)/20)).1
        = Int.floor ((-(3 : ℚ)/20) * 10)) := by
  have h1 : (Tokens.award_tokens [] "H1" "Plastik PET" (-(3 : ℚ)/20)).1 = -1 := by
    norm_num [Tokens.award_tokens, pyInt]
  have h2 : Int.floor ((-(3 : ℚ)/20) * 10) = -2 := by
    norm_num
  rw [h1, h2]
  decide

/-- C4 (amended): for nonnegative weight the grant is
`floor(weight * 10)` (truncation and floor agree there), and the call
returns the tokens granted by this call — the balance moves by exactly
the returned amount, not to it. -/
theorem C4_award_floor (s : Tokens.TokenStore) (household material : String)
    (weight : ℚ) (hw : 0 ≤ weight) :
    (Tokens.award_tokens s household material weight).1
        = Int.floor (weight * 10)
    ∧ Tokens.get_balance (Tokens.award_tokens s household material weight).2
          household
      = Tokens.get_balance s household
          + (Tokens.award_tokens s household material weight).1 := by
  constructor
  · have h10 : ¬ (weight * 10 < 0) := by
      refine not_lt.mpr ?_
      positivity
    simp [Tokens.award_tokens, pyInt, h10]
  · simp [Tokens.award_tokens, Tokens.get_balance, lookupD_dictSet]

/-- C4 witness: the spec's example, weight 3.2 kg. -/
theorem C4_witness :
    (Tokens.award_tokens [] "H1" "Plastik PET" ((16 : ℚ)/5)).1
        = Int.floor (((16 : ℚ)/5) * 10)
    ∧ Tokens.get_balance
          (Tokens.award_tokens [] "H1" "Plastik PET" ((16 : ℚ)/5)).2 "H1"
      = Tokens.get_balance [] "H1"
          + (Tokens.award_tokens [] "H1" "Plastik PET" ((16 : ℚ)/5)).1 :=
  C4_award_floor [] "H1" "Plastik PET" ((16 : ℚ)/5) (by norm_num)

/-- A key that no pair of the store carries reads as zero. -/
theorem lookupD_eq_zero (s : Tokens.TokenStore) (h : String)
    (habs : ∀ p ∈ s, p.1 ≠ h) : Tokens.lookupD s h = 0 := by
  induction s with
  | nil => rfl
  | cons p rest ih =>
    have hp : ¬ (p.1 = h) := habs p (List.mem_cons_self p rest)
    simp only [Tokens.lookupD, beq_iff_eq, hp, if_false]
    exact ih (fun q hq => habs q (List.mem_cons_of_mem p hq))

/-- C10: a household whose key is absent from the token store reads
balance 0, and its first award lands on a zero starting balance: the
new balance is exactly the tokens of that call. -/
theorem C10_absent_household (s : Tokens.TokenStore)
    (household material : String) (weight : ℚ)
    (habs : ∀ p ∈ s, p.1 ≠ household) :
    Tokens.get_balance s household = 0
    ∧ Tokens.get_balance
          (Tokens.award_tokens s household material weight).2 household
      = pyInt (weight * 10) := by
  have hz : Tokens.lookupD s household = 0 := lookupD_eq_zero s household habs
  constructor
  · exact hz
  · simp [Tokens.award_tokens, Tokens.get_balance, lookupD_dictSet, hz]

/-- C10 witness: a store holding only another household. -/
theorem C10_witness :
    Tokens.get_balance [("H0", 5)] "H1" = 0
    ∧ Tokens.get_balance
          (Tokens.award_tokens [("H0", 5)] "H1" "Plastik PET" 2).2 "H1"
      = pyInt (2 * 10) :=
  C10_absent_household [("H0", 5)] "H1" "Plastik PET" 2 (by decide)

/-- C6: the ledger store write is an idempotent upsert keyed by
`tx_id`: it keeps the transaction identifiers duplicate-free, the
written `tx_id` occurs on exactly one row afterwards, and writing the
same entry twice equals writing it once. -/
theorem C6_ledger_upsert (s : List Ledger.LedgerEntry)
    (e : Ledger.LedgerEntry)
    (hnd : (s.map (fun r => r.tx_id)).Nodup) :
    ((Db.add_ledger_entry s e).map (fun r => r.tx_id)).Nodup
    ∧ List.count e.tx_id
        ((Db.add_ledger_entry s e).map (fun r => r.tx_id)) = 1
    ∧ Db.add_ledger_entry (Db.add_ledger_entry s e) e
        = Db.add_ledger_entry s e := by
  have hsub : ((s.filter (fun r => r.tx_id ≠ e.tx_id)).map (fun r => r.tx_id)).Sublist
      (s.map (fun r => r.tx_id)) := List.Sublist.map _ (List.filter_sublist s)
  have hndf : ((s.filter (fun r => r.tx_id ≠ e.tx_id)).map (fun r => r.tx_id)).Nodup :=
    hnd.sublist hsub
  have hnm : e.tx_id ∉ (s.filter (fun r => r.tx_id ≠ e.tx_id)).map (fun r => r.tx_id) := by
    intro hmem
    simp only [List.mem_map, List.mem_filter, decide_eq_true_eq] at hmem
    obtain ⟨r, ⟨_, hne⟩, heq⟩ := hmem
    exact hne heq
  refine ⟨?_, ?_, ?_⟩
  · simp only [Db.add_ledger_entry, List.map_append, List.map_cons, List.map_nil]
    rw [List.nodup_append_comm]
    exact List.nodup_cons.mpr ⟨hnm, hndf⟩
  · simp only [Db.add_ledger_entry, List.map_append, List.map_cons, List.map_nil]
    rw [List.count_append]
    rw [List.count_eq_zero.mpr hnm]
    simp
  · simp [Db.add_ledger_entry, List.filter_append, List.filter_filter]

/-- C6 witness: the empty store and a concrete entry. -/
theorem C6_witness :
    ((Db.add_ledger_entry [] demoEntry).map (fun r => r.tx_id)).Nodup
    ∧ List.count demoEntry.tx_id
        ((Db.add_ledger_entry [] demoEntry).map (fun r => r.tx_id)) = 1
    ∧ Db.add_ledger_entry (Db.add_ledger_entry [] demoEntry) demoEntry
        = Db.add_ledger_entry [] demoEntry :=
  C6_ledger_upsert [] demoEntry (by simp)

/-- The payload dict of `record_transaction`, sorted by key as
`json.dumps(..., sort_keys=True)` does, lists its seven fields in
lexicographic key order. -/
theorem sortKeys_payload (household collector material : String)
    (weight price_per_kg total : PyNum) (created_at : String) :
    sortKeys (Ledger.payloadList household collector material weight
        price_per_kg total created_at)
      = [("collector", PyVal.str collector),
         ("created_at", PyVal.str created_at),
         ("household", PyVal.str household),
         ("material", PyVal.str material),
         ("price_per_kg", PyVal.num price_per_kg),
         ("total", PyVal.num total),
         ("weight", PyVal.num weight)] := by
  rfl

/-- C1: with the call-time timestamp pinned, `record_transaction` is a
pure function of (household, collector, material, weight, price_per_kg,
created_at): two calls with identical fields (whatever their photo
arguments) produce the identical `tx_id`, and that `tx_id` is the
SHA-256 hex digest of the JSON serialization, keys in lexicographic
order, of the payload including `total = weight * price_per_kg`. -/
theorem C1_settlement_deterministic_hash
    (household collector material : String) (weight price_per_kg : PyNum)
    (created_at : String) (photo : Option String)
    (household2 collector2 material2 : String)
    (weight2 price_per_kg2 : PyNum) (photo2 : Option String)
    (eh : household = household2) (ec : collector = collector2)
    (em : material = material2) (ew : weight = weight2)
    (ep : price_per_kg = price_per_kg2) :
    (Ledger.record_transaction household collector material weight
        price_per_kg created_at photo).tx_id
      = (Ledger.record_transaction household2 collector2 material2 weight2
          price_per_kg2 created_at photo2).tx_id
    ∧ (Ledger.record_transaction household collector material weight
        price_per_kg created_at photo).tx_id
      = SHA256.sha256hex (utf8 (Ledger.lexPayloadDump household collector
          material weight price_per_kg (pyMul weight price_per_kg)
          created_at)) := by
  subst eh ec em ew ep
  refine ⟨rfl, ?_⟩
  show SHA256.sha256hex (utf8 (dumpsObj (Ledger.payloadList household
      collector material weight price_per_kg (pyMul weight price_per_kg)
      created_at))) = _
  rw [dumpsObj, sortKeys_payload]
  rfl

/-- C1 witness: a concrete settlement (weight 2.5 kg at 4000 per kg),
the same fields with a different photo argument. -/
theorem C1_witness :
    (Ledger.record_transaction "H1" "Pengepul B" "Plastik PET"
        (PyNum.float (5/2)) (PyNum.int 4000) "2026-01-01T00:00:00"
        none).tx_id
      = (Ledger.record_transaction "H1" "Pengepul B" "Plastik PET"
          (PyNum.float (5/2)) (PyNum.int 4000) "2026-01-01T00:00:00"
          (some "uploads/1.jpg")).tx_id
    ∧ (Ledger.record_transaction "H1" "Pengepul B" "Plastik PET"
        (PyNum.float (5/2)) (PyNum.int 4000) "2026-01-01T00:00:00"
        none).tx_id
      = SHA256.sha256hex (utf8 (Ledger.lexPayloadDump "H1" "Pengepul B"
          "Plastik PET" (PyNum.float (5/2)) (PyNum.int 4000)
          (pyMul (PyNum.float (5/2)) (PyNum.int 4000))
          "2026-01-01T00:00:00")) :=
  C1_settlement_deterministic_hash "H1" "Pengepul B" "Plastik PET"
    (PyNum.float (5/2)) (PyNum.int 4000) "2026-01-01T00:00:00" none
    "H1" "Pengepul B" "Plastik PET" (PyNum.float (5/2)) (PyNum.int 4000)
    (some "uploads/1.jpg") rfl rfl rfl rfl rfl

/-- C2: for every material label, `find_collectors_for` equals the
spec-side stable sort (subset of the static list accepting the label,
ascending price, ties by original position), is a permutation of the
accepting subset, and is sorted by price; the empty result needs no
error. -/
theorem C2_matching (material : String) :
    Matchmaking.find_collectors_for material = Matchmaking.matchSpec material
    ∧ (Matchmaking.find_collectors_for material).Perm
        (Matchmaking.COLLECTORS.filter
          (fun c => c.waste_types.contains material))
    ∧ List.Pairwise (fun a b => a.price_per_kg ≤ b.price_per_kg)
        (Matchmaking.find_collectors_for material) := by
  cases hA : (["Plastik PET", "Kertas"] : List String).contains material <;>
  cases hB : (["Plastik PET", "HDPE"] : List String).contains material <;>
  cases hC : (["Kertas", "Kaca", "Logam"] : List String).contains material <;>
  simp only [Matchmaking.find_collectors_for, Matchmaking.matchSpec,
    Matchmaking.COLLECTORS, Matchmaking.withIdx, List.filter_cons,
    List.filter_nil, hA, hB, hC, if_true, if_false] <;>
  decide

/-- In every reachable request store the row ids are exactly 1..n in
insertion order (the auto-increment primary key). -/
theorem ids_of_reachable (s : List PPS.PRequest) (hr : PPS.Reachable s) :
    s.map (fun r => r.id) = List.range' 1 s.length := by
  induction hr with
  | nil => rfl
  | step hr hst ih =>
    cases hst with
    | add created_at household_name address reported_waste_type
        model_waste_type weight_kg notes photo_path =>
      simp only [PPS.add_request, List.map_append, List.map_cons,
        List.map_nil, List.length_append, List.length_cons, List.length_nil]
      rw [ih, List.range'_concat]
      simp [Nat.add_comm]
    | assign request_id collector_name =>
      simp only [PPS.assign_collector, List.map_map, List.length_map]
      rw [← ih]
      apply List.map_congr_left
      intro r _
      by_cases h : r.id = request_id <;> simp [h]

/-- In every reachable request store, a row's collector is set exactly
when its status is ASSIGNED. -/
theorem statusInv_of_reachable (s : List PPS.PRequest)
    (hr : PPS.Reachable s) :
    ∀ r ∈ s, (r.assigned_collector ≠ none ↔ r.status = "ASSIGNED") := by
  induction hr with
  | nil => intro r hmem; cases hmem
  | step hr hst ih =>
    cases hst with
    | add created_at household_name address reported_waste_type
        model_waste_type weight_kg notes photo_path =>
      intro r hmem
      rcases List.mem_append.mp hmem with h | h
      · exact ih r h
      · rw [List.mem_singleton.mp h]
        simp
    | assign request_id collector_name =>
      intro r hmem
      rcases List.mem_map.mp hmem with ⟨t, ht, rfl⟩
      by_cases h : t.id = request_id
      · simp [h]
      · simp only [h, if_false]
        exact ih t ht

/-- In a reachable store, rows are determined by their id. -/
theorem id_inj_of_reachable (s : List PPS.PRequest)
    (hr : PPS.Reachable s) :
    ∀ a ∈ s, ∀ b ∈ s, a.id = b.id → a = b := by
  have hnd : (s.map (fun r => r.id)).Nodup := by
    rw [ids_of_reachable s hr]
    exact List.nodup_range' 1 s.length
  intro a ha b hb hab
  exact List.inj_on_of_nodup_map hnd ha hb hab

/-- C3: in every state reachable from the empty request store by
`add_request` / `assign_collector` steps, a row's
`assigned_collector` is non-null exactly when its status is ASSIGNED,
and one further step never moves a row out of ASSIGNED (no
ASSIGNED-to-OPEN transition). -/
theorem C3_status_invariant (s s' : List PPS.PRequest)
    (hr : PPS.Reachable s) (hst : PPS.Step s s') :
    (∀ r ∈ s', (r.assigned_collector ≠ none ↔ r.status = "ASSIGNED"))
    ∧ (∀ r ∈ s, r.status = "ASSIGNED" →
        ∀ r' ∈ s', r'.id = r.id → r'.status = "ASSIGNED") := by
  constructor
  · exact statusInv_of_reachable s' (hr.step hst)
  · intro r hmem hstat r' hmem' hid
    cases hst with
    | add created_at household_name address reported_waste_type
        model_waste_type weight_kg notes photo_path =>
      simp only [PPS.add_request] at hmem'
      rcases List.mem_append.mp hmem' with h | h
      · rw [id_inj_of_reachable s hr r' h r hmem hid]
        exact hstat
      · exfalso
        rw [List.mem_singleton.mp h] at hid
        simp only at hid
        have hbound : r.id ∈ List.range' 1 s.length := by
          rw [← ids_of_reachable s hr]
          exact List.mem_map_of_mem (fun x => x.id) hmem
        have := (List.mem_range'_1.mp hbound).2
        omega
    | assign request_id collector_name =>
      rcases List.mem_map.mp hmem' with ⟨t, ht, rfl⟩
      by_cases h : t.id = request_id
      · simp [h]
      · simp only [h, if_false] at hid ⊢
        rw [id_inj_of_reachable s hr t ht r hmem hid]
        exact hstat

/-- C3 witness: create one request, then assign it. -/
theorem C3_witness :
    (∀ r ∈ PPS.assign_collector demoState 1 "Pengepul X",
        (r.assigned_collector ≠ none ↔ r.status = "ASSIGNED"))
    ∧ (∀ r ∈ demoState, r.status = "ASSIGNED" →
        ∀ r' ∈ PPS.assign_collector demoState 1 "Pengepul X",
          r'.id = r.id → r'.status = "ASSIGNED") :=
  C3_status_invariant demoState (PPS.assign_collector demoState 1 "Pengepul X")
    (PPS.Reachable.step PPS.Reachable.nil
      (PPS.Step.add [] "2026-01-01T00:00:00" "H1" "Jl. Merdeka 1"
        "Plastik PET" none 2 "" none))
    (PPS.Step.assign demoState 1 "Pengepul X")

/-- Truncation toward zero of a nonnegative rational is nonnegative. -/
theorem pyInt_nonneg (q : ℚ) (hq : 0 ≤ q) : 0 ≤ pyInt q := by
  rw [pyInt, if_neg (not_lt.mpr hq)]
  exact Int.floor_nonneg.mpr hq

/-- Balance read after a single award: the awarded household moves by
the grant, every other household is untouched. -/
theorem get_balance_award (s : Tokens.TokenStore) (k material : String)
    (w : ℚ) (h : String) :
    Tokens.get_balance (Tokens.award_tokens s k material w).2 h
      = Tokens.get_balance s h + (if k = h then pyInt (w * 10) else 0) := by
  simp only [Tokens.award_tokens, Tokens.get_balance, lookupD_dictSet]
  by_cases hkh : k = h
  · subst hkh; simp
  · simp [hkh]

/-- Balance after a sequence of awards: initial balance plus the sum of
the grants to that household. -/
theorem balance_runAwards (calls : List (String × String × ℚ))
    (s : Tokens.TokenStore) (h : String) :
    Tokens.get_balance (Tokens.runAwards s calls) h
      = Tokens.get_balance s h + Tokens.grantsTo h calls := by
  induction calls generalizing s with
  | nil => simp [Tokens.runAwards, Tokens.grantsTo]
  | cons c rest ih =>
    simp only [Tokens.runAwards, Tokens.grantsTo]
    rw [ih, get_balance_award]
    by_cases hch : c.1 = h
    · simp [hch]; ring
    · simp [hch]

/-- The granted sum splits over concatenation of call sequences. -/
theorem grantsTo_append (h : String) (l1 l2 : List (String × String × ℚ)) :
    Tokens.grantsTo h (l1 ++ l2)
      = Tokens.grantsTo h l1 + Tokens.grantsTo h l2 := by
  induction l1 with
  | nil => simp [Tokens.grantsTo]
  | cons c rest ih =>
    simp only [List.cons_append, Tokens.grantsTo, List.append_eq]
    rw [ih]; ring

/-- With nonnegative weights every granted sum is nonnegative. -/
theorem grantsTo_nonneg (h : String) (l : List (String × String × ℚ))
    (hw : ∀ c ∈ l, 0 ≤ c.2.2) : 0 ≤ Tokens.grantsTo h l := by
  induction l with
  | nil => simp [Tokens.grantsTo]
  | cons c rest ih =>
    simp only [Tokens.grantsTo]
    have h1 : 0 ≤ (if c.1 == h then pyInt (c.2.2 * 10) else 0) := by
      by_cases hch : c.1 == h
      · rw [if_pos hch]
        exact pyInt_nonneg _ (by
          have := hw c (List.mem_cons_self c rest)
          positivity)
      · rw [if_neg hch]
    have h2 : 0 ≤ Tokens.grantsTo h rest :=
      ih (fun q hq => hw q (List.mem_cons_of_mem c hq))
    omega

/-- C5 counterexample: with the negative-weight award sequence
(3.2 kg then -1.0 kg) the balance drops from 32 to 22, so it is not
monotonically non-decreasing across an arbitrary sequence. -/
theorem C5_counterexample :
    ¬ (Tokens.get_balance (Tokens.runAwards [] (demoCallsNeg.take 1)) "H1"
        ≤ Tokens.get_balance (Tokens.runAwards [] (demoCallsNeg.take 2)) "H1") := by
  have h1 : Tokens.get_balance
      (Tokens.runAwards [] (demoCallsNeg.take 1)) "H1" = 32 := by
    norm_num [demoCallsNeg, Tokens.runAwards, Tokens.award_tokens,
      Tokens.get_balance, Tokens.dictSet, Tokens.lookupD, pyInt]
  have h2 : Tokens.get_balance
      (Tokens.runAwards [] (demoCallsNeg.take 2)) "H1" = 22 := by
    norm_num [demoCallsNeg, Tokens.runAwards, Tokens.award_tokens,
      Tokens.get_balance, Tokens.dictSet, Tokens.lookupD, pyInt]
  rw [h1, h2]
  decide

/-- C5 (amended): the balance always equals the starting balance plus
the sum of the grants to that household; under nonnegative weights the
balance is monotonically non-decreasing along the sequence. -/
theorem C5_token_balance (s : Tokens.TokenStore)
    (calls : List (String × String × ℚ)) (h : String) :
    Tokens.get_balance (Tokens.runAwards s calls) h
      = Tokens.get_balance s h + Tokens.grantsTo h calls
    ∧ ((∀ c ∈ calls, 0 ≤ c.2.2) → ∀ i j, i ≤ j →
        Tokens.get_balance (Tokens.runAwards s (calls.take i)) h
          ≤ Tokens.get_balance (Tokens.runAwards s (calls.take j)) h) := by
  constructor
  · exact balance_runAwards calls s h
  · intro hw i j hij
    rw [balance_runAwards, balance_runAwards]
    have hsplit : calls.take j
        = calls.take i ++ ((calls.drop i).take (j - i)) := by
      conv_lhs => rw [show j = i + (j - i) from by omega, List.take_add]
    rw [hsplit, grantsTo_append]
    have hnn : 0 ≤ Tokens.grantsTo h ((calls.drop i).take (j - i)) := by
      apply grantsTo_nonneg
      intro c hc
      exact hw c (List.drop_subset i calls (List.take_subset _ _ hc))
    omega

/-- C5 witness: the spec's example, award 3.2 kg then 1.0 kg; the
balance never decreases along the sequence. -/
theorem C5_witness :
    (Tokens.get_balance (Tokens.runAwards [] demoCalls) "H1"
      = Tokens.get_balance [] "H1" + Tokens.grantsTo "H1" demoCalls)
    ∧ Tokens.get_balance (Tokens.runAwards [] (demoCalls.take 1)) "H1"
        ≤ Tokens.get_balance (Tokens.runAwards [] (demoCalls.take 2)) "H1" :=
  ⟨(C5_token_balance [] demoCalls "H1").1,
   (C5_token_balance [] demoCalls "H1").2
     (by
       intro c hc
       simp only [demoCalls, List.mem_cons, List.not_mem_nil, or_false] at hc
       rcases hc with h | h <;> subst h <;> norm_num)
     1 2 (by omega)⟩
